import Mathlib

/-!
# telemetry-lab ingest service: validation and persistence pipeline

A shallow embedding of `ingest-go/cmd/ingest/main.go`.

* Go strings that reach the program come out of `encoding/json`, which only
  produces valid UTF-8, so a Go `string` is a Lean `String` and Go's `len` is
  the UTF-8 byte count `String.utf8ByteSize`.
* `json.RawMessage` is a byte slice: `List UInt8`.
* A Go `error` is its text; `nil` is `none`.
* A `time.Time` instant is an `Int`, nanoseconds since the Unix epoch.
* The Go standard library calls whose code is outside the repository
  (`strings.ToUpper`, `time.Parse`, `Time.Format`, `json.Unmarshal`) are the
  fields of `Lib`; every general theorem holds for all of them.
* What one request gets from outside (clock readings, fresh identifiers, the
  errors of the store) is an `Env`; every general theorem holds for all of them.
* A handler returns its response, the committed rows afterwards, and the
  record of the calls it made to `validateEvent`, `insertEvent`, `insertBatch`.
-/

namespace Ingest

/-! ## Go runtime pieces used by the program -/

/-- Go `unicode.IsSpace`: the Latin-1 cases and the `White_Space` table. -/
def isSpace (c : Char) : Bool :=
  let n := c.toNat
  (0x09 ≤ n && n ≤ 0x0D) || n == 0x20 || n == 0x85 || n == 0xA0 || n == 0x1680 ||
  (0x2000 ≤ n && n ≤ 0x200A) || n == 0x2028 || n == 0x2029 || n == 0x202F ||
  n == 0x205F || n == 0x3000

/-- Go `strings.TrimSpace` on a list of runes. -/
def trimRunes (cs : List Char) : List Char :=
  ((cs.dropWhile isSpace).reverse.dropWhile isSpace).reverse

/-- Go `strings.TrimSpace`: drop the leading and the trailing white space. -/
def trimSpace (s : String) : String :=
  String.mk (trimRunes s.data)

/-- Go `len(s)` for a string: the number of bytes of its UTF-8 encoding. -/
def len (s : String) : Nat :=
  s.utf8ByteSize

/-- A `time.Time` instant, in nanoseconds since the Unix epoch. -/
abbrev Instant := Int

/-- Go `time.Second` as a `time.Duration` (nanoseconds). -/
def second : Int := 1000000000

/-- Go `time.Minute` as a `time.Duration` (nanoseconds). -/
def minute : Int := 60 * second

/-- Go `Time.Add`. -/
def Instant.add (t : Instant) (d : Int) : Instant :=
  t + d

/-- Go `Time.After`: `t` is strictly later than `u`. -/
def Instant.after (t u : Instant) : Bool :=
  decide (u < t)

/-- The Go standard library functions the program calls. -/
structure Lib where
  /-- Go `strings.ToUpper`. -/
  toUpper : String → String
  /-- Go `time.Parse(time.RFC3339, s)`: the instant, or `none` on a parse error. -/
  parseRFC3339 : String → Option Instant
  /-- Go `t.UTC().Format(time.RFC3339)`. -/
  formatRFC3339 : Instant → String
  /-- Go `json.Unmarshal(b, &tmp) == nil` for `tmp` of type `any`. -/
  jsonValid : List UInt8 → Bool

/-! ## Data model -/

/-- Go `EventIn`. -/
structure EventIn where
  source : String
  ts : String
  level : String
  message : String
  meta : List UInt8
deriving DecidableEq, Repr

/-- Go `EventOut`. -/
structure EventOut where
  id : String
  receivedAt : String
deriving DecidableEq, Repr

/-! ## Validation -/

/-- Go `validateEvent`; `now` is what `time.Now()` returns when it is reached. -/
def validateEvent (L : Lib) (now : Instant) (e : EventIn) : Option String :=
  let source := trimSpace e.source
  let level := trimSpace (L.toUpper e.level)
  let message := trimSpace e.message
  if source = "" then some "source is required"
  else if len source > 64 then some "source too long (max 64)"
  else if message = "" then some "message is required"
  else if len message > 2000 then some "message too long (max 2000)"
  else if ¬ (level = "DEBUG" ∨ level = "INFO" ∨ level = "WARN" ∨ level = "ERROR") then
    some "level must be one of DEBUG, INFO, WARN, ERROR"
  else
    match L.parseRFC3339 e.ts with
    | none => some "ts must be RFC3339 (e.g. 2025-12-30T12:00:00Z)"
    | some t =>
      if t.after (now.add (5 * minute)) then some "ts is too far in the future"
      else if e.meta.length > 0 then
        if L.jsonValid e.meta then none else some "meta must be valid JSON"
      else none

/-! ## The store

The `events` relation and the part of `database/sql` the program uses.  The
store is an external collaborator: an operation either succeeds or fails with
an error the environment chooses (`Faults`), and an operation that fails
leaves the store as it was.  A transaction stages its inserts in the `Tx`
value; they join the committed rows when `Commit` succeeds, and they are
discarded when `Rollback` reaches the store. -/

/-- A row of the `events` relation; `meta_json` is `none` for SQL `NULL`. -/
structure Row where
  id : String
  source : String
  ts : String
  level : String
  message : String
  meta_json : Option (List UInt8)
  received_at : String
deriving DecidableEq, Repr

/-- The committed rows of the store. -/
abbrev DB := List Row

/-- A `sql.Tx`: the inserts staged on the connection and not yet committed or discarded,
and whether `database/sql` has marked the transaction finished. -/
structure Tx where
  staged : List Row
  done : Bool
deriving DecidableEq, Repr

/-- The errors the store answers with during one request, `none` for success. -/
structure Faults where
  /-- Outcome of `db.BeginTx`. -/
  beginTx : Option String
  /-- Outcome of `tx.PrepareContext`. -/
  prepare : Option String
  /-- Outcome of the `i`-th `ExecContext` of the request. -/
  exec : Nat → Option String
  /-- Outcome of `tx.Commit`. -/
  commit : Option String

/-- What the surroundings of one request supply. -/
structure Env where
  /-- The reading of `time.Now()` while candidate `i` is validated. -/
  nowValidate : Nat → Instant
  /-- The reading of `time.Now()` inside `insertEvent` or `insertBatch`. -/
  nowInsert : Instant
  /-- The `k`-th value of `ulid.Make().String()` in this request. -/
  newId : Nat → String
  /-- The store errors of this request. -/
  faults : Faults

/-- Go `db.BeginTx`. -/
def beginTx (F : Faults) : Except String Tx :=
  match F.beginTx with
  | some err => .error err
  | none => .ok { staged := [], done := false }

/-- Go `tx.Rollback`: discards what is staged.  On a transaction already marked finished it
returns `ErrTxDone` without reaching the store. -/
def Tx.rollback (tx : Tx) : Tx :=
  if tx.done then tx else { staged := [], done := true }

/-- Go `tx.Commit`: `database/sql` marks the transaction finished, then asks the store to
commit.  On success the staged rows join the committed rows.  On failure the store is as it
was: nothing is committed and the staged rows are still staged. -/
def Tx.commit (F : Faults) (tx : Tx) (db : DB) : Option String × Tx × DB :=
  if tx.done then (some "sql: transaction has already been committed or rolled back", tx, db)
  else
    match F.commit with
    | some err => (some err, { tx with done := true }, db)
    | none => (none, { staged := [], done := true }, db ++ tx.staged)

/-- Go `stmt.ExecContext` inside a transaction: stages one row. -/
def Tx.exec (F : Faults) (i : Nat) (row : Row) (tx : Tx) : Except String Tx :=
  match F.exec i with
  | some err => .error err
  | none => .ok { tx with staged := tx.staged ++ [row] }

/-- Go `db.ExecContext` outside a transaction: one durable insert. -/
def execAuto (F : Faults) (i : Nat) (row : Row) (db : DB) : Option String × DB :=
  match F.exec i with
  | some err => (some err, db)
  | none => (none, db ++ [row])

/-! ## Writers -/

/-- Go `insertEvent`: the named results `(id, receivedAt, err)` and the store afterwards. -/
def insertEvent (L : Lib) (E : Env) (db : DB) (e : EventIn) :
    (String × String × Option String) × DB :=
  let id := E.newId 0
  let receivedAt := L.formatRFC3339 E.nowInsert
  let metaStr : Option (List UInt8) := if e.meta.length > 0 then some e.meta else none
  let r := execAuto E.faults 0
    { id := id, source := e.source, ts := e.ts, level := e.level, message := e.message,
      meta_json := metaStr, received_at := receivedAt } db
  ((id, receivedAt, r.1), r.2)

/-- The `for _, in := range events` loop of `insertBatch`, from candidate number `i` on. -/
def insertLoop (E : Env) (receivedAt : String) :
    List EventIn → Nat → Tx → List String → Except String (List String) × Tx
  | [], _, tx, ids => (.ok ids, tx)
  | e :: rest, i, tx, ids =>
    let id := E.newId i
    let metaStr : Option (List UInt8) := if e.meta.length > 0 then some e.meta else none
    match tx.exec E.faults i
      { id := id, source := e.source, ts := e.ts, level := e.level, message := e.message,
        meta_json := metaStr, received_at := receivedAt } with
    | .error err => (.error err, tx)
    | .ok tx1 => insertLoop E receivedAt rest (i + 1) tx1 (ids ++ [id])

/-- What `insertBatch` leaves behind. -/
structure BatchResult where
  /-- The returned `([]string, error)`: the ids, or the error with no id list. -/
  result : Except String (List String)
  /-- The committed rows afterwards. -/
  db : DB
  /-- The transaction object afterwards, if one was begun. -/
  tx : Option Tx

/-- The rows a reader sees afterwards through the one connection the program opens
(`db.SetMaxOpenConns(1)`): the committed rows and what is still staged on the connection. -/
def BatchResult.visible (r : BatchResult) : List Row :=
  match r.tx with
  | some tx => r.db ++ tx.staged
  | none => r.db

/-- Go `insertBatch`; the deferred `tx.Rollback()` runs on every return after `BeginTx`.
The deferred `stmt.Close()` touches no row and is left out. -/
def insertBatch (L : Lib) (E : Env) (db : DB) (events : List EventIn) : BatchResult :=
  match beginTx E.faults with
  | .error err => { result := .error err, db := db, tx := none }
  | .ok tx =>
    match E.faults.prepare with
    | some err => { result := .error err, db := db, tx := some tx.rollback }
    | none =>
      let receivedAt := L.formatRFC3339 E.nowInsert
      match insertLoop E receivedAt events 0 tx [] with
      | (.error err, tx1) => { result := .error err, db := db, tx := some tx1.rollback }
      | (.ok ids, tx1) =>
        match tx1.commit E.faults db with
        | (some err, tx2, db2) => { result := .error err, db := db2, tx := some tx2.rollback }
        | (none, tx2, db2) => { result := .ok ids, db := db2, tx := some tx2.rollback }

/-! ## Handlers -/

/-- The JSON documents the handlers send. -/
inductive Body where
  /-- The body of `writeErr`: an `error` object with `code` and `message`. -/
  | error (code : String) (message : String)
  /-- An `EventOut`. -/
  | event (out : EventOut)
  /-- The batch answer: `count` and `ids`. -/
  | batch (count : Nat) (ids : List String)
deriving DecidableEq, Repr

/-- What `writeJSON` sends: the status and the encoded value. -/
structure Response where
  status : Nat
  body : Body
deriving DecidableEq, Repr

/-- Go `writeJSON`. -/
def writeJSON (status : Nat) (v : Body) : Response :=
  { status := status, body := v }

/-- Go `writeErr`. -/
def writeErr (status : Nat) (code : String) (msg : String) : Response :=
  writeJSON status (.error code msg)

/-- Calls a handler makes, recorded in order. -/
inductive Call where
  | validateEvent (i : Nat)
  | insertEvent
  | insertBatch
deriving DecidableEq, Repr

/-- A handled request: the response, the committed rows afterwards and the calls made. -/
structure Outcome where
  response : Response
  db : DB
  calls : List Call
deriving DecidableEq, Repr

/-- Go `decodeEvent`, after the JSON decoder produced `decoded`. -/
def decodeEvent (L : Lib) (E : Env) (decoded : Except String EventIn) :
    Except String EventIn × List Call :=
  match decoded with
  | .error err => (.error err, [])
  | .ok e =>
    match validateEvent L (E.nowValidate 0) e with
    | some err => (.error err, [.validateEvent 0])
    | none => (.ok e, [.validateEvent 0])

/-- Go `decodeBatch`, after the JSON decoder produced `decoded`. -/
def decodeBatch (decoded : Except String (List EventIn)) : Except String (List EventIn) :=
  match decoded with
  | .error err => .error err
  | .ok arr =>
    if arr.length = 0 then .error "batch must not be empty"
    else if arr.length > 1000 then .error "batch too large (max 1000)"
    else .ok arr

/-- The `POST /events` handler. -/
def postEvents (L : Lib) (E : Env) (decoded : Except String EventIn) (db : DB) : Outcome :=
  match decodeEvent L E decoded with
  | (.error err, calls) =>
    { response := writeErr 400 "invalid_request" err, db := db, calls := calls }
  | (.ok e, calls) =>
    match insertEvent L E db e with
    | ((_, _, some err), db1) =>
      { response := writeErr 500 "insert_failed" err, db := db1,
        calls := calls ++ [.insertEvent] }
    | ((id, receivedAt, none), db1) =>
      { response := writeJSON 201 (.event { id := id, receivedAt := receivedAt }), db := db1,
        calls := calls ++ [.insertEvent] }

/-- The validation loop of the batch handler, from candidate number `i` on:
the first failing index with its reason, and the calls made. -/
def validateLoop (L : Lib) (E : Env) :
    List EventIn → Nat → List Call → Option (Nat × String) × List Call
  | [], _, calls => (none, calls)
  | e :: rest, i, calls =>
    match validateEvent L (E.nowValidate i) e with
    | some err => (some (i, err), calls ++ [.validateEvent i])
    | none => validateLoop L E rest (i + 1) (calls ++ [.validateEvent i])

/-- The `POST /events/batch` handler. -/
def postEventsBatch (L : Lib) (E : Env) (decoded : Except String (List EventIn)) (db : DB) :
    Outcome :=
  match decodeBatch decoded with
  | .error err => { response := writeErr 400 "invalid_request" err, db := db, calls := [] }
  | .ok events =>
    match validateLoop L E events 0 [] with
    | (some (i, err), calls) =>
      { response := writeErr 400 "invalid_event" ("index " ++ toString i ++ ": " ++ err),
        db := db, calls := calls }
    | (none, calls) =>
      let r := insertBatch L E db events
      match r.result with
      | .error err =>
        { response := writeErr 500 "insert_failed" err, db := r.db,
          calls := calls ++ [.insertBatch] }
      | .ok ids =>
        { response := writeJSON 201 (.batch ids.length ids), db := r.db,
          calls := calls ++ [.insertBatch] }

/-! ## A reference instance of the library

Used to evaluate the program on concrete requests.  It follows the Go library
(Go 1.20 and later): `time.Parse` with the layout `time.RFC3339`, which is
laxer than RFC 3339 in places, and `json.Unmarshal` into an `any`, which is
stricter than RFC 8259 in places.  `strings.ToUpper` is followed as far as the
level check can tell. -/

/-- Go `unicode.ToUpper` on ASCII, and on the two other runes whose upper case is an
ASCII letter (dotless i and long s).  Other runes are left as they are, which changes no
answer of the level check: the upper case of no other rune is an ASCII letter or a space. -/
def upperRune (c : Char) : Char :=
  if 0x61 ≤ c.toNat ∧ c.toNat ≤ 0x7A then Char.ofNat (c.toNat - 32)
  else if c.toNat = 0x131 then 'I'
  else if c.toNat = 0x17F then 'S'
  else c

/-- Rune-wise upper-casing, as `strings.ToUpper` does it. -/
def refToUpper (s : String) : String :=
  String.mk (s.data.map upperRune)

/-- The value of a decimal digit. -/
def digitVal (c : Char) : Option Nat :=
  if 0x30 ≤ c.toNat ∧ c.toNat ≤ 0x39 then some (c.toNat - 0x30) else none

/-- The value of two decimal digits. -/
def twoDigits (a b : Char) : Option Nat :=
  match digitVal a, digitVal b with
  | some x, some y => some (10 * x + y)
  | _, _ => none

/-- Whether `y` is a leap year of the proleptic Gregorian calendar. -/
def isLeap (y : Nat) : Bool :=
  (y % 4 == 0 && y % 100 != 0) || y % 400 == 0

/-- The number of days of month `m` of year `y`. -/
def daysIn (y m : Nat) : Nat :=
  if m = 2 then (if isLeap y then 29 else 28)
  else if m = 4 ∨ m = 6 ∨ m = 9 ∨ m = 11 then 30
  else 31

/-- Days from 1970-01-01 to the civil date `y-m-d`. -/
def daysFromCivil (y m d : Nat) : Int :=
  let yy := y + 400 - (if m ≤ 2 then 1 else 0)
  let era := yy / 400
  let yoe := yy % 400
  let mp := if m > 2 then m - 3 else m + 9
  let doy := (153 * mp + 2) / 5 + d - 1
  let doe := yoe * 365 + yoe / 4 - yoe / 100 + doy
  ((era * 146097 + doe : Nat) : Int) - 719468 - 146097

/-- The digits of a fractional second, at least one; the first nine count. -/
def parseFraction : List Char → Nat → Nat → Option (Nat × List Char)
  | c :: rest, taken, acc =>
    match digitVal c with
    | some v =>
      if taken < 9 then parseFraction rest (taken + 1) (acc * 10 + v)
      else parseFraction rest taken acc
    | none => if taken = 0 then none else some (acc * 10 ^ (9 - taken), c :: rest)
  | [], taken, acc => if taken = 0 then none else some (acc * 10 ^ (9 - taken), [])

/-- The zone of a timestamp, in seconds east of UTC; nothing may follow it.  Go lets the
offset run to 24 hours and 60 minutes. -/
def parseZone : List Char → Option Int
  | ['Z'] => some 0
  | [sg, h1, h2, ':', m1, m2] =>
    match twoDigits h1 h2, twoDigits m1 m2 with
    | some h, some m =>
      if h ≤ 24 ∧ m ≤ 60 then
        if sg = '+' then some ((h * 3600 + m * 60 : Nat) : Int)
        else if sg = '-' then some (-((h * 3600 + m * 60 : Nat) : Int))
        else none
      else none
    | _, _ => none
  | _ => none

/-- The hour of a timestamp: two digits, or one digit when no digit follows it. -/
def parseHour : List Char → Option (Nat × List Char)
  | a :: b :: rest =>
    match digitVal a, digitVal b with
    | some x, some y => some (10 * x + y, rest)
    | some x, none => some (x, b :: rest)
    | none, _ => none
  | [a] =>
    match digitVal a with
    | some x => some (x, [])
    | none => none
  | [] => none

/-- Go `time.Parse(time.RFC3339, s)`: the instant of a timestamp of the shape
`YYYY-MM-DDTHH:MM:SS[.fraction](Z|+HH:MM|-HH:MM)`, where the hour may have one digit and the
fraction may follow a comma. -/
def refParseRFC3339 (s : String) : Option Instant :=
  match s.data with
  | y1 :: y2 :: y3 :: y4 :: '-' :: m1 :: m2 :: '-' :: d1 :: d2 :: 'T' :: afterT =>
    match twoDigits y1 y2, twoDigits y3 y4, twoDigits m1 m2, twoDigits d1 d2,
        parseHour afterT with
    | some yh, some yl, some mo, some d, some (h, ':' :: n1 :: n2 :: ':' :: s1 :: s2 :: rest) =>
      match twoDigits n1 n2, twoDigits s1 s2 with
      | some mi, some sec =>
        let y := 100 * yh + yl
        if 1 ≤ mo ∧ mo ≤ 12 ∧ 1 ≤ d ∧ d ≤ daysIn y mo ∧ h ≤ 23 ∧ mi ≤ 59 ∧ sec ≤ 59 then
          let fr : Option (Nat × List Char) :=
            match rest with
            | '.' :: more => parseFraction more 0 0
            | ',' :: more => parseFraction more 0 0
            | _ => some (0, rest)
          match fr with
          | some (ns, tail) =>
            match parseZone tail with
            | some off =>
              some ((daysFromCivil y mo d * 86400 + ((h * 3600 + mi * 60 + sec : Nat) : Int)
                - off) * 1000000000 + (ns : Int))
            | none => none
          | none => none
        else none
      | _, _ => none
    | _, _, _, _, _ => none
  | _ => none

/-- A number in decimal, at least `width` digits wide. -/
def padNat (width n : Nat) : String :=
  let digits := toString n
  String.mk (List.replicate (width - digits.length) '0') ++ digits

/-- Go `t.UTC().Format(time.RFC3339)` for an instant of the years 0000 to 9999. -/
def refFormatRFC3339 (t : Instant) : String :=
  let secs := Int.ediv t 1000000000
  let days := Int.ediv secs 86400
  let sod := (Int.emod secs 86400).toNat
  let z := days + 719468
  let era := Int.ediv z 146097
  let doe := (Int.emod z 146097).toNat
  let yoe := (doe - doe / 1460 + doe / 36524 - doe / 146096) / 365
  let doy := doe - (365 * yoe + yoe / 4 - yoe / 100)
  let mp := (5 * doy + 2) / 153
  let d := doy - (153 * mp + 2) / 5 + 1
  let m := if mp < 10 then mp + 3 else mp - 9
  let y := ((yoe : Int) + era * 400 + (if m ≤ 2 then 1 else 0)).toNat
  padNat 4 y ++ "-" ++ padNat 2 m ++ "-" ++ padNat 2 d ++ "T" ++
    padNat 2 (sod / 3600) ++ ":" ++ padNat 2 (sod % 3600 / 60) ++ ":" ++ padNat 2 (sod % 60) ++ "Z"

/-- Where the JSON scanner stands, as in the state machine of `encoding/json`. -/
inductive Scan where
  | beginValue
  | beginValueOrEnd
  | beginKeyOrEnd
  | beginKey
  | afterKey
  | afterValue
  | inString (key : Bool)
  | inStringEsc (key : Bool)
  | inStringHex (key : Bool) (left : Nat)
  | lit (rest : List Nat)
  | numNeg
  | num0
  | numInt
  | numDot
  | numFrac
  | numE
  | numESign
  | numExp
deriving DecidableEq, Repr

/-- JSON white space. -/
def isJsonSpace (b : Nat) : Bool :=
  b == 0x20 || b == 0x09 || b == 0x0D || b == 0x0A

/-- A decimal digit. -/
def isDigit (b : Nat) : Bool :=
  0x30 ≤ b && b ≤ 0x39

/-- A hexadecimal digit. -/
def isHex (b : Nat) : Bool :=
  isDigit b || (0x41 ≤ b && b ≤ 0x46) || (0x61 ≤ b && b ≤ 0x66)

/-- The scanner after a complete value, reading byte `b`; the stack holds `true` for
each open object and `false` for each open array. -/
def stepAfterValue (stack : List Bool) (b : Nat) : Option (Scan × List Bool) :=
  if isJsonSpace b then some (.afterValue, stack)
  else if b = 0x2C then
    match stack with
    | true :: _ => some (.beginKey, stack)
    | false :: _ => some (.beginValue, stack)
    | [] => none
  else if b = 0x5D then
    match stack with
    | false :: below => some (.afterValue, below)
    | _ => none
  else if b = 0x7D then
    match stack with
    | true :: below => some (.afterValue, below)
    | _ => none
  else none

/-- The scanner where a value may begin, reading byte `b`.  Objects and arrays nest at
most 10000 deep. -/
def stepBeginValue (stack : List Bool) (b : Nat) : Option (Scan × List Bool) :=
  if b = 0x7B then
    if stack.length < 10000 then some (.beginKeyOrEnd, true :: stack) else none
  else if b = 0x5B then
    if stack.length < 10000 then some (.beginValueOrEnd, false :: stack) else none
  else if b = 0x22 then some (.inString false, stack)
  else if b = 0x2D then some (.numNeg, stack)
  else if b = 0x30 then some (.num0, stack)
  else if isDigit b then some (.numInt, stack)
  else if b = 0x74 then some (.lit [0x72, 0x75, 0x65], stack)
  else if b = 0x66 then some (.lit [0x61, 0x6C, 0x73, 0x65], stack)
  else if b = 0x6E then some (.lit [0x75, 0x6C, 0x6C], stack)
  else none

/-- One step of the JSON scanner. -/
def scanStep (st : Scan) (stack : List Bool) (b : Nat) : Option (Scan × List Bool) :=
  match st with
  | .beginValue =>
    if isJsonSpace b then some (.beginValue, stack) else stepBeginValue stack b
  | .beginValueOrEnd =>
    if isJsonSpace b then some (.beginValueOrEnd, stack)
    else if b = 0x5D then stepAfterValue stack b
    else stepBeginValue stack b
  | .beginKeyOrEnd =>
    if isJsonSpace b then some (.beginKeyOrEnd, stack)
    else if b = 0x7D then stepAfterValue stack b
    else if b = 0x22 then some (.inString true, stack)
    else none
  | .beginKey =>
    if isJsonSpace b then some (.beginKey, stack)
    else if b = 0x22 then some (.inString true, stack)
    else none
  | .afterKey =>
    if isJsonSpace b then some (.afterKey, stack)
    else if b = 0x3A then some (.beginValue, stack)
    else none
  | .afterValue => stepAfterValue stack b
  | .inString key =>
    if b = 0x22 then some (if key then .afterKey else .afterValue, stack)
    else if b = 0x5C then some (.inStringEsc key, stack)
    else if b < 0x20 then none
    else some (.inString key, stack)
  | .inStringEsc key =>
    if b = 0x22 ∨ b = 0x5C ∨ b = 0x2F ∨ b = 0x62 ∨ b = 0x66 ∨ b = 0x6E ∨ b = 0x72 ∨ b = 0x74 then
      some (.inString key, stack)
    else if b = 0x75 then some (.inStringHex key 4, stack)
    else none
  | .inStringHex key left =>
    if isHex b then some (if left ≤ 1 then .inString key else .inStringHex key (left - 1), stack)
    else none
  | .lit [] => none
  | .lit (c :: rest) =>
    if b = c then some (if rest = [] then .afterValue else .lit rest, stack) else none
  | .numNeg =>
    if b = 0x30 then some (.num0, stack)
    else if isDigit b then some (.numInt, stack)
    else none
  | .num0 =>
    if b = 0x2E then some (.numDot, stack)
    else if b = 0x65 ∨ b = 0x45 then some (.numE, stack)
    else stepAfterValue stack b
  | .numInt =>
    if isDigit b then some (.numInt, stack)
    else if b = 0x2E then some (.numDot, stack)
    else if b = 0x65 ∨ b = 0x45 then some (.numE, stack)
    else stepAfterValue stack b
  | .numDot => if isDigit b then some (.numFrac, stack) else none
  | .numFrac =>
    if isDigit b then some (.numFrac, stack)
    else if b = 0x65 ∨ b = 0x45 then some (.numE, stack)
    else stepAfterValue stack b
  | .numE =>
    if b = 0x2B ∨ b = 0x2D then some (.numESign, stack)
    else if isDigit b then some (.numExp, stack)
    else none
  | .numESign => if isDigit b then some (.numExp, stack) else none
  | .numExp => if isDigit b then some (.numExp, stack) else stepAfterValue stack b

/-- Run the scanner over the bytes; at the end one complete value must have been read. -/
def scanAll : Scan → List Bool → List Nat → Bool
  | st, stack, [] =>
    stack.isEmpty &&
      (st == .afterValue || st == .num0 || st == .numInt || st == .numFrac || st == .numExp)
  | st, stack, b :: rest =>
    match scanStep st stack b with
    | some (st1, stack1) => scanAll st1 stack1 rest
    | none => false

/-- The number tokens of a JSON text: outside strings, each run of number bytes that starts
with a digit or a minus sign.  `tok` is the token being read, last byte first. -/
def numberTokens : List Nat → Bool → Bool → List Nat → List (List Nat)
  | [], _, _, tok => if tok = [] then [] else [tok.reverse]
  | b :: rest, inStr, esc, tok =>
    if inStr then
      if esc then numberTokens rest true false []
      else if b = 0x5C then numberTokens rest true true []
      else if b = 0x22 then numberTokens rest false false []
      else numberTokens rest true false []
    else if tok ≠ [] then
      if isDigit b ∨ b = 0x2E ∨ b = 0x65 ∨ b = 0x45 ∨ b = 0x2B ∨ b = 0x2D then
        numberTokens rest false false (b :: tok)
      else tok.reverse :: numberTokens rest (b == 0x22) false []
    else if isDigit b ∨ b = 0x2D then numberTokens rest false false [b]
    else numberTokens rest (b == 0x22) false []

/-- The number written by decimal digits. -/
def digitsValue (ds : List Nat) : Nat :=
  ds.foldl (fun acc d => acc * 10 + (d - 0x30)) 0

/-- The least magnitude that `strconv.ParseFloat` rounds beyond the largest `float64`:
two to the 1024 less two to the 970, half a unit in the last place above the largest. -/
def float64Limit : Nat :=
  179769313486231580793728971405303415079934132710037826936173778980444968292764750946649017977587207096330286416692887910946555547851940402630657488671505820681908902000708383676273854845817711531764475730270069855571366959622842914819860834936475292719074168444365510704342711559699508093042880177904174497792

/-- Whether a JSON number token converts to a `float64`: its magnitude, the digits `m`
scaled by ten to the exponent less the number of fraction digits, is below `float64Limit`.
The two length tests only spare the evaluation a needless power of ten. -/
def numberFits (tok : List Nat) : Bool :=
  let body := match tok with
    | 0x2D :: r => r
    | r => r
  let intPart := body.takeWhile isDigit
  let afterInt := body.dropWhile isDigit
  let fracPart := match afterInt with
    | 0x2E :: r => r.takeWhile isDigit
    | _ => []
  let afterFrac := match afterInt with
    | 0x2E :: r => r.dropWhile isDigit
    | r => r
  let negExp := match afterFrac with
    | _ :: 0x2D :: _ => true
    | _ => false
  let expDigits := match afterFrac with
    | _ :: 0x2D :: r => r
    | _ :: 0x2B :: r => r
    | _ :: r => r
    | [] => []
  let m := digitsValue (intPart ++ fracPart)
  let ex := digitsValue expDigits
  let f := fracPart.length
  if m = 0 then true
  else if negExp then
    decide ((intPart ++ fracPart).length ≤ ex + f) || decide (m < float64Limit * 10 ^ (ex + f))
  else if f ≤ ex then
    decide (ex - f ≤ 400) && decide (m * 10 ^ (ex - f) < float64Limit)
  else
    decide ((intPart ++ fracPart).length ≤ f - ex) || decide (m < float64Limit * 10 ^ (f - ex))

/-- Go `json.Unmarshal(b, &tmp) == nil` for `tmp` of type `any`: the bytes are one JSON text
(RFC 8259) nested at most 10000 deep, and every number in it converts to a `float64`. -/
def refJsonValid (bs : List UInt8) : Bool :=
  scanAll .beginValue [] (bs.map UInt8.toNat) &&
    (numberTokens (bs.map UInt8.toNat) false false []).all numberFits

/-- The reference instance of the library. -/
def refLib : Lib where
  toUpper := refToUpper
  parseRFC3339 := refParseRFC3339
  formatRFC3339 := refFormatRFC3339
  jsonValid := refJsonValid

/-! ## Statement-side definitions -/

/-- The four level names. -/
def levels : List String :=
  ["DEBUG", "INFO", "WARN", "ERROR"]

/-- The validation rules as the specification lists them, in its order: when a rule is
violated, and the reason reported for it. -/
def rules (L : Lib) (now : Instant) : List ((EventIn → Bool) × String) :=
  [ (fun e => decide (trimSpace e.source = ""), "source is required"),
    (fun e => decide (len (trimSpace e.source) > 64), "source too long (max 64)"),
    (fun e => decide (trimSpace e.message = ""), "message is required"),
    (fun e => decide (len (trimSpace e.message) > 2000), "message too long (max 2000)"),
    (fun e => decide (trimSpace (L.toUpper e.level) ∉ levels),
      "level must be one of DEBUG, INFO, WARN, ERROR"),
    (fun e => (L.parseRFC3339 e.ts).isNone, "ts must be RFC3339 (e.g. 2025-12-30T12:00:00Z)"),
    (fun e => match L.parseRFC3339 e.ts with
      | some t => decide (now + 5 * minute < t)
      | none => false, "ts is too far in the future"),
    (fun e => decide (e.meta ≠ []) && !L.jsonValid e.meta, "meta must be valid JSON") ]

/-- The reason of the first violated rule, if a rule is violated. -/
def firstViolation (L : Lib) (now : Instant) (e : EventIn) : Option String :=
  ((rules L now).find? (fun r => r.1 e)).map (fun r => r.2)

/-- The level, ts and meta of a candidate are valid at time `now`. -/
def restValid (L : Lib) (now : Instant) (e : EventIn) : Prop :=
  trimSpace (L.toUpper e.level) ∈ levels ∧
  (∃ t, L.parseRFC3339 e.ts = some t ∧ ¬ now + 5 * minute < t) ∧
  (e.meta = [] ∨ L.jsonValid e.meta = true)

/-- The instant 2025-01-01T00:00:00Z. -/
def now0 : Instant := 1735689600000000000

/-- The accepted request of the specification's scenario. -/
def exampleEvent : EventIn :=
  { source := "svc-a", ts := "2025-01-01T00:00:00Z", level := "info", message := "hello",
    meta := [] }

/-- A candidate whose source is 64 characters of two bytes each. -/
def wideSourceEvent : EventIn :=
  { source := String.mk (List.replicate 64 (Char.ofNat 0xE9)), ts := "2025-01-01T00:00:00Z",
    level := "INFO", message := "hello", meta := [] }

/-- A candidate stamped five minutes and one second after `now0`. -/
def futureEvent : EventIn :=
  { source := "svc-a", ts := "2025-01-01T00:05:01Z", level := "WARN", message := "late",
    meta := [] }

/-- A candidate with an empty source and every other field fine. -/
def noSourceEvent : EventIn :=
  { source := "", ts := "2025-01-01T00:00:00Z", level := "INFO", message := "hi", meta := [] }

/-- Every store operation of a batch of `n` events succeeds. -/
def noFaults (F : Faults) (n : Nat) : Prop :=
  F.beginTx = none ∧ F.prepare = none ∧ (∀ i, i < n → F.exec i = none) ∧ F.commit = none

/-- The error of the first store operation of a batch of `n` events that fails, in the order
`insertBatch` issues them: begin, prepare, the `n` inserts, commit. -/
def firstFault (F : Faults) (n : Nat) : Option String :=
  match F.beginTx with
  | some err => some err
  | none =>
    match F.prepare with
    | some err => some err
    | none =>
      match (List.range' 0 n).findSome? F.exec with
      | some err => some err
      | none => F.commit

/-- A store that answers every operation with success. -/
def okFaults : Faults :=
  { beginTx := none, prepare := none, exec := fun _ => none, commit := none }

/-- A request served at `now0` by a healthy store. -/
def env0 : Env :=
  { nowValidate := fun _ => now0, nowInsert := now0, newId := fun k => "ulid-" ++ toString k,
    faults := okFaults }

/-- A request during which every insert fails with the error `msg`. -/
def envExecFails (msg : String) : Env :=
  { env0 with faults := { okFaults with exec := fun _ => some msg } }

/-- A request whose commit fails after every insert was staged. -/
def envCommitFails : Env :=
  { env0 with faults := { okFaults with commit := some "database is locked" } }

/-- A request during which the second insert fails and the others succeed. -/
def envSecondExecFails : Env :=
  { env0 with faults :=
      { okFaults with exec := fun i => if i = 1 then some "disk I/O error" else none } }

/-- The accepted scenario with the hour of `ts` written with one digit. -/
def shortHourEvent : EventIn :=
  { exampleEvent with ts := "2025-01-01T1:02:03Z" }

/-- The accepted scenario with the meta `1e999`, a JSON number beyond every `float64`. -/
def hugeNumberEvent : EventIn :=
  { exampleEvent with meta := [0x31, 0x65, 0x39, 0x39, 0x39] }

/-- A store that already holds one row. -/
def db0 : DB :=
  [{ id := "ulid-old", source := "svc-z", ts := "2024-12-31T23:59:59Z", level := "WARN",
     message := "earlier", meta_json := none, received_at := "2024-12-31T23:59:59Z" }]

/-- A candidate with a meta object. -/
def metaEvent : EventIn :=
  { source := " svc-b ", ts := "2025-01-01T00:00:00+01:00", level := " Error ",
    message := "boom", meta := [0x7B, 0x22, 0x6B, 0x22, 0x3A, 0x31, 0x7D] }

/-- The rows a batch writes for the candidates from number `i` on, as the claims describe
them: the raw fields, a fresh id each, one shared receipt time, `NULL` for an absent meta. -/
def expectedRows (E : Env) (receivedAt : String) : List EventIn → Nat → List Row
  | [], _ => []
  | e :: rest, i =>
    { id := E.newId i, source := e.source, ts := e.ts, level := e.level, message := e.message,
      meta_json := if e.meta = [] then none else some e.meta, received_at := receivedAt } ::
      expectedRows E receivedAt rest (i + 1)

/-! ## Lemmas -/

theorem len_eq_zero_iff (s : String) : len s = 0 ↔ s = "" := by
  cases s with
  | mk cs =>
    simp only [len, String.utf8ByteSize_mk, String.utf8Len_eq_zero]
    constructor
    · intro h; subst h; rfl
    · intro h; exact congrArg String.data h

theorem length_le_len (s : String) : s.length ≤ len s := by
  cases s with
  | mk cs =>
    simp only [len, String.utf8ByteSize_mk, String.length]
    induction cs with
    | nil => simp
    | cons c cs ih =>
      have := Char.utf8Size_pos c
      simp only [List.length_cons, String.utf8Len_cons]
      omega

theorem len_eq_length_of_ascii (s : String) (h : ∀ c ∈ s.data, c.toNat < 128) :
    len s = s.length := by
  cases s with
  | mk cs =>
    simp only [len, String.utf8ByteSize_mk, String.length]
    induction cs with
    | nil => simp
    | cons c cs ih =>
      have hc : c.utf8Size = 1 := by
        have h1 : c.toNat < 128 := h c (by simp)
        have h2 : c.val.toNat ≤ 127 := by
          simp only [Char.toNat] at h1; omega
        simp only [Char.utf8Size]
        have h3 : c.val ≤ 127 := by
          rw [UInt32.le_def]; simpa using h2
        simp [h3]
      have ih2 := ih (fun d hd => h d (by simp [hd]))
      simp only [List.length_cons, String.utf8Len_cons, hc, ih2]

theorem two_le_utf8Size_of_non_ascii (c : Char) (h : 128 ≤ c.toNat) : 2 ≤ c.utf8Size := by
  have h1 : ¬ c.val ≤ 127 := by
    rw [UInt32.le_def]
    simp only [Char.toNat] at h
    intro hle
    have : c.val.toNat ≤ 127 := by simpa using hle
    omega
  simp only [Char.utf8Size]
  split_ifs with a
  · exact absurd a h1
  all_goals omega

theorem length_lt_len_of_non_ascii (s : String) (h : ∃ c ∈ s.data, 128 ≤ c.toNat) :
    s.length < len s := by
  cases s with
  | mk cs =>
    simp only [len, String.utf8ByteSize_mk, String.length]
    simp only at h
    induction cs with
    | nil => simp at h
    | cons c cs ih =>
      have hle : cs.length ≤ String.utf8Len cs := by
        simpa [len, String.length] using length_le_len (String.mk cs)
      have hpos := Char.utf8Size_pos c
      simp only [List.length_cons, String.utf8Len_cons]
      obtain ⟨d, hd, hd128⟩ := h
      rcases List.mem_cons.mp hd with hdc | hdc
      · subst hdc
        have := two_le_utf8Size_of_non_ascii d hd128
        omega
      · have := ih ⟨d, hdc, hd128⟩
        omega

theorem validateEvent_source_too_long (L : Lib) (now : Instant) (e : EventIn)
    (h : 64 < len (trimSpace e.source)) :
    validateEvent L now e = some "source too long (max 64)" := by
  have h1 : trimSpace e.source ≠ "" := by
    intro h0
    have := (len_eq_zero_iff _).mpr h0
    omega
  unfold validateEvent
  simp [h1, h]

theorem validateEvent_message_too_long (L : Lib) (now : Instant) (e : EventIn)
    (hs : 1 ≤ len (trimSpace e.source) ∧ len (trimSpace e.source) ≤ 64)
    (h : 2000 < len (trimSpace e.message)) :
    validateEvent L now e = some "message too long (max 2000)" := by
  have h1 : trimSpace e.source ≠ "" := by
    intro h0
    have := (len_eq_zero_iff _).mpr h0
    omega
  have h2 : ¬ 64 < len (trimSpace e.source) := by omega
  have h3 : trimSpace e.message ≠ "" := by
    intro h0
    have := (len_eq_zero_iff _).mpr h0
    omega
  unfold validateEvent
  simp [h1, h2, h3, h]

theorem levels_mem (s : String) :
    s ∈ levels ↔ (s = "DEBUG" ∨ s = "INFO" ∨ s = "WARN" ∨ s = "ERROR") := by
  simp [levels]

theorem validateEvent_eq_firstViolation (L : Lib) (now : Instant) (e : EventIn) :
    validateEvent L now e = firstViolation L now e := by
  unfold validateEvent firstViolation rules
  simp only [Instant.after, Instant.add, levels_mem, List.find?_cons]
  by_cases h1 : trimSpace e.source = ""
  · simp [h1]
  by_cases h2 : len (trimSpace e.source) > 64
  · simp [h1, h2]
  by_cases h3 : trimSpace e.message = ""
  · simp [h1, h2, h3]
  by_cases h4 : len (trimSpace e.message) > 2000
  · simp [h1, h2, h3, h4]
  by_cases h5 : (trimSpace (L.toUpper e.level) = "DEBUG" ∨ trimSpace (L.toUpper e.level) = "INFO" ∨
      trimSpace (L.toUpper e.level) = "WARN" ∨ trimSpace (L.toUpper e.level) = "ERROR")
  swap
  · simp [h1, h2, h3, h4, h5]
  cases h6 : L.parseRFC3339 e.ts with
  | none => simp [h1, h2, h3, h4, h5]
  | some t =>
    by_cases h7 : now + 5 * minute < t
    · simp [h1, h2, h3, h4, h5, h7]
    by_cases h8 : e.meta = []
    · simp [h1, h2, h3, h4, h5, h7, h8]
    cases h9 : L.jsonValid e.meta
    · simp [h1, h2, h3, h4, h5, h7, h8, h9, List.length_pos]
    · simp [h1, h2, h3, h4, h5, h7, h8, h9, List.length_pos]

/-- With source, message, level and meta valid and `ts` parsed, only the future rule is left. -/
theorem validateEvent_of_fields_valid (L : Lib) (now : Int) (e : EventIn) (t : Int)
    (hsrc : trimSpace e.source ≠ "" ∧ len (trimSpace e.source) ≤ 64)
    (hmsg : trimSpace e.message ≠ "" ∧ len (trimSpace e.message) ≤ 2000)
    (hlvl : trimSpace (L.toUpper e.level) ∈ levels)
    (hmeta : e.meta = [] ∨ L.jsonValid e.meta = true)
    (hts : L.parseRFC3339 e.ts = some t) :
    validateEvent L now e =
      if now + 5 * minute < t then some "ts is too far in the future" else none := by
  have h2 : ¬ len (trimSpace e.source) > 64 := by omega
  have h4 : ¬ len (trimSpace e.message) > 2000 := by omega
  rw [levels_mem] at hlvl
  unfold validateEvent
  simp only [Instant.after, Instant.add, hsrc.1, hmsg.1, h2, h4, hlvl, hts, if_false,
    not_true_eq_false]
  by_cases h7 : now + 5 * minute < t
  · simp [h7]
  · rcases hmeta with h8 | h8
    · simp [h7, h8]
    · simp [h7, h8]

theorem validateEvent_none_iff (L : Lib) (now : Instant) (e : EventIn) :
    validateEvent L now e = none ↔
      (trimSpace e.source ≠ "" ∧ len (trimSpace e.source) ≤ 64) ∧
      (trimSpace e.message ≠ "" ∧ len (trimSpace e.message) ≤ 2000) ∧ restValid L now e := by
  unfold validateEvent restValid
  simp only [Instant.after, Instant.add, levels_mem]
  by_cases h1 : trimSpace e.source = ""
  · simp [h1]
  by_cases h2 : len (trimSpace e.source) > 64
  · simp [h1, h2]
  by_cases h3 : trimSpace e.message = ""
  · simp [h1, h2, h3]
  by_cases h4 : len (trimSpace e.message) > 2000
  · simp [h1, h2, h3, h4]
  by_cases h5 : (trimSpace (L.toUpper e.level) = "DEBUG" ∨ trimSpace (L.toUpper e.level) = "INFO" ∨
      trimSpace (L.toUpper e.level) = "WARN" ∨ trimSpace (L.toUpper e.level) = "ERROR")
  swap
  · simp [h1, h2, h3, h4, h5]
  have h2b : len (trimSpace e.source) ≤ 64 := by omega
  have h4b : len (trimSpace e.message) ≤ 2000 := by omega
  cases h6 : L.parseRFC3339 e.ts with
  | none => simp [h1, h2, h3, h4, h5]
  | some t =>
    by_cases h7 : now + 5 * minute < t
    · simp [h1, h2, h3, h4, h5, h7]
    have h2c : ¬ 64 < len (trimSpace e.source) := h2
    have h4c : ¬ 2000 < len (trimSpace e.message) := h4
    have h7c : t ≤ now + 5 * minute := not_lt.mp h7
    by_cases h8 : e.meta = []
    · simp [h1, h2b, h2c, h3, h4b, h4c, h5, h7, h7c, h8]
    cases h9 : L.jsonValid e.meta
    · simp [h1, h2b, h2c, h3, h4b, h4c, h5, h7, h7c, h8, h9, List.length_pos]
    · simp [h1, h2b, h2c, h3, h4b, h4c, h5, h7, h7c, h8, h9, List.length_pos]

theorem expectedRows_length (E : Env) (ra : String) (evs : List EventIn) (i : Nat) :
    (expectedRows E ra evs i).length = evs.length := by
  induction evs generalizing i with
  | nil => rfl
  | cons e rest ih => simp [expectedRows, ih]

theorem expectedRows_getElem? (E : Env) (ra : String) (evs : List EventIn) (i k : Nat) :
    (expectedRows E ra evs i)[k]? = evs[k]?.map (fun e =>
      { id := E.newId (i + k), source := e.source, ts := e.ts, level := e.level,
        message := e.message, meta_json := if e.meta = [] then none else some e.meta,
        received_at := ra }) := by
  induction evs generalizing i k with
  | nil => simp [expectedRows]
  | cons e rest ih =>
    cases k with
    | zero => simp [expectedRows]
    | succ k =>
      simp only [expectedRows, List.getElem?_cons_succ, ih]
      congr 1
      funext e
      have : i + 1 + k = i + (k + 1) := by omega
      rw [this]

theorem expectedRows_ids (E : Env) (ra : String) (evs : List EventIn) (i : Nat) :
    (expectedRows E ra evs i).map Row.id = (List.range' i evs.length).map E.newId := by
  induction evs generalizing i with
  | nil => rfl
  | cons e rest ih => simp [expectedRows, ih, List.range'_succ]

theorem expectedRows_received_at (E : Env) (ra : String) (evs : List EventIn) (i : Nat) :
    ∀ r ∈ expectedRows E ra evs i, r.received_at = ra := by
  induction evs generalizing i with
  | nil => intro r hr; simp [expectedRows] at hr
  | cons e rest ih =>
    intro r hr
    simp only [expectedRows, List.mem_cons] at hr
    rcases hr with h | h
    · rw [h]
    · exact ih (i + 1) r h

theorem metaStr_eq (e : EventIn) :
    (if e.meta.length > 0 then some e.meta else none : Option (List UInt8)) =
      (if e.meta = [] then none else some e.meta) := by
  cases h : e.meta with
  | nil => simp
  | cons b bs => simp

theorem insertLoop_ok (E : Env) (ra : String) (evs : List EventIn) (i : Nat) (tx : Tx)
    (ids : List String) (h : ∀ j, j < evs.length → E.faults.exec (i + j) = none) :
    insertLoop E ra evs i tx ids =
      (.ok (ids ++ (expectedRows E ra evs i).map Row.id),
       { tx with staged := tx.staged ++ expectedRows E ra evs i }) := by
  induction evs generalizing i tx ids with
  | nil => simp [insertLoop, expectedRows]
  | cons e rest ih =>
    have h0 : E.faults.exec i = none := by simpa using h 0 (by simp)
    have hrest : ∀ j, j < rest.length → E.faults.exec (i + 1 + j) = none := by
      intro j hj
      have := h (j + 1) (by simp; omega)
      rw [show i + 1 + j = i + (j + 1) by omega]
      exact this
    simp only [insertLoop, Tx.exec, h0, metaStr_eq]
    rw [ih (i + 1) _ _ hrest]
    simp [expectedRows]

theorem insertLoop_done (E : Env) (ra : String) (evs : List EventIn) (i : Nat) (tx : Tx)
    (ids : List String) : (insertLoop E ra evs i tx ids).2.done = tx.done := by
  induction evs generalizing i tx ids with
  | nil => simp [insertLoop]
  | cons e rest ih =>
    simp only [insertLoop, Tx.exec]
    cases h0 : E.faults.exec i with
    | some err => simp
    | none => simp only []; rw [ih]

theorem insertLoop_error (E : Env) (ra : String) (evs : List EventIn) (i : Nat) (tx : Tx)
    (ids : List String) (j : Nat) (hj : j < evs.length) (hf : E.faults.exec (i + j) ≠ none) :
    ∃ err, (insertLoop E ra evs i tx ids).1 = .error err := by
  induction evs generalizing i tx ids j with
  | nil => simp at hj
  | cons e rest ih =>
    simp only [insertLoop, Tx.exec]
    cases h0 : E.faults.exec i with
    | some err => exact ⟨err, rfl⟩
    | none =>
      cases j with
      | zero => simp [h0] at hf
      | succ j =>
        simp only []
        apply ih (i + 1) _ _ j (by simpa using hj)
        rw [show i + 1 + j = i + (j + 1) by omega]
        exact hf

theorem validateLoop_ok (L : Lib) (E : Env) (evs : List EventIn) (i : Nat) (calls : List Call)
    (h : ∀ j e, evs[j]? = some e → validateEvent L (E.nowValidate (i + j)) e = none) :
    validateLoop L E evs i calls =
      (none, calls ++ (List.range' i evs.length).map Call.validateEvent) := by
  induction evs generalizing i calls with
  | nil => simp [validateLoop]
  | cons e rest ih =>
    have h0 : validateEvent L (E.nowValidate i) e = none := by simpa using h 0 e (by simp)
    have hrest : ∀ j e1, rest[j]? = some e1 →
        validateEvent L (E.nowValidate (i + 1 + j)) e1 = none := by
      intro j e1 hj
      rw [show i + 1 + j = i + (j + 1) by omega]
      exact h (j + 1) e1 (by simpa using hj)
    simp only [validateLoop, h0]
    rw [ih (i + 1) _ hrest]
    simp [List.range'_succ]

theorem validateLoop_first (L : Lib) (E : Env) (evs : List EventIn) (i : Nat)
    (calls : List Call) (k : Nat) (e : EventIn) (reason : String)
    (hk : evs[k]? = some e) (hbad : validateEvent L (E.nowValidate (i + k)) e = some reason)
    (hmin : ∀ j e1, j < k → evs[j]? = some e1 →
      validateEvent L (E.nowValidate (i + j)) e1 = none) :
    validateLoop L E evs i calls =
      (some (i + k, reason), calls ++ (List.range' i (k + 1)).map Call.validateEvent) := by
  induction evs generalizing i calls k with
  | nil => simp at hk
  | cons e0 rest ih =>
    cases k with
    | zero =>
      simp only [List.getElem?_cons_zero, Option.some.injEq] at hk
      subst hk
      simp only [Nat.add_zero] at hbad
      simp [validateLoop, hbad]
    | succ k =>
      have h0 : validateEvent L (E.nowValidate i) e0 = none := by
        simpa using hmin 0 e0 (by omega) (by simp)
      simp only [validateLoop, h0]
      rw [ih (i + 1) _ k (by simpa using hk)
        (by rw [show i + 1 + k = i + (k + 1) by omega]; exact hbad)
        (by
          intro j e1 hj hj1
          rw [show i + 1 + j = i + (j + 1) by omega]
          exact hmin (j + 1) e1 (by omega) (by simpa using hj1))]
      simp [List.range'_succ, show i + 1 + k = i + (k + 1) by omega]

theorem insertLoop_result (E : Env) (ra : String) (evs : List EventIn) (i : Nat) (tx : Tx)
    (ids : List String) :
    (insertLoop E ra evs i tx ids).1 =
      match (List.range' i evs.length).findSome? E.faults.exec with
      | some err => .error err
      | none => .ok (ids ++ (List.range' i evs.length).map E.newId) := by
  induction evs generalizing i tx ids with
  | nil => simp [insertLoop]
  | cons e rest ih =>
    simp only [insertLoop, Tx.exec, List.length_cons, List.range'_succ, List.findSome?_cons]
    cases h0 : E.faults.exec i with
    | some err => rfl
    | none =>
      simp only [ih, List.map_cons]
      cases List.findSome? E.faults.exec (List.range' (i + 1) rest.length) <;> simp

/-- Before the commit the deferred `Rollback` does its work: when beginning the transaction,
preparing the statement or one of the staged inserts fails, `insertBatch` returns an error
and no id list, nothing is committed, and a transaction that was begun is finished with
nothing staged. -/
theorem insertBatch_fault_before_commit (L : Lib) (E : Env) (db : DB) (events : List EventIn)
    (h : E.faults.beginTx ≠ none ∨ E.faults.prepare ≠ none ∨
      ∃ i, i < events.length ∧ E.faults.exec i ≠ none) :
    (∃ err, (insertBatch L E db events).result = .error err) ∧
    (insertBatch L E db events).db = db ∧
    (∀ tx, (insertBatch L E db events).tx = some tx → tx.staged = [] ∧ tx.done = true) ∧
    (insertBatch L E db events).visible = db := by
  unfold BatchResult.visible insertBatch beginTx
  cases hb : E.faults.beginTx with
  | some err => simp
  | none =>
    cases hp : E.faults.prepare with
    | some err => simp [Tx.rollback]
    | none =>
      simp only []
      have hdone := insertLoop_done E (L.formatRFC3339 E.nowInsert) events 0
        { staged := [], done := false } []
      rcases hloop : insertLoop E (L.formatRFC3339 E.nowInsert) events 0
        { staged := [], done := false } [] with ⟨res, tx1⟩
      rw [hloop] at hdone
      simp only at hdone
      cases res with
      | error err => simp [Tx.rollback, hdone]
      | ok ids =>
        exfalso
        rcases h with h | h | h
        · exact h hb
        · exact h hp
        · obtain ⟨i, hi, hf⟩ := h
          obtain ⟨err, herr⟩ := insertLoop_error E (L.formatRFC3339 E.nowInsert) events 0
            { staged := [], done := false } [] i hi (by simpa using hf)
          rw [hloop] at herr
          simp at herr

theorem insertBatch_result (L : Lib) (E : Env) (db : DB) (events : List EventIn) :
    (insertBatch L E db events).result =
      match firstFault E.faults events.length with
      | some err => .error err
      | none => .ok ((List.range' 0 events.length).map E.newId) := by
  unfold insertBatch beginTx firstFault
  cases hb : E.faults.beginTx with
  | some err => rfl
  | none =>
    cases hp : E.faults.prepare with
    | some err => rfl
    | none =>
      simp only []
      have hdone := insertLoop_done E (L.formatRFC3339 E.nowInsert) events 0
        { staged := [], done := false } []
      have hres := insertLoop_result E (L.formatRFC3339 E.nowInsert) events 0
        { staged := [], done := false } []
      rcases hloop : insertLoop E (L.formatRFC3339 E.nowInsert) events 0
        { staged := [], done := false } [] with ⟨res, tx1⟩
      rw [hloop] at hdone hres
      simp only at hdone hres
      cases hx : List.findSome? E.faults.exec (List.range' 0 events.length) with
      | some err =>
        rw [hx] at hres
        simp only at hres
        subst hres
        rfl
      | none =>
        rw [hx] at hres
        simp only [List.nil_append] at hres
        subst hres
        simp only [Tx.commit, hdone]
        cases hc : E.faults.commit <;> simp

theorem insertBatch_ok (L : Lib) (E : Env) (db : DB) (events : List EventIn)
    (h : noFaults E.faults events.length) :
    (insertBatch L E db events).result =
        .ok ((List.range' 0 events.length).map E.newId) ∧
    (insertBatch L E db events).db =
        db ++ expectedRows E (L.formatRFC3339 E.nowInsert) events 0 ∧
    (insertBatch L E db events).tx = some { staged := [], done := true } := by
  obtain ⟨hb, hp, hx, hc⟩ := h
  have hloop := insertLoop_ok E (L.formatRFC3339 E.nowInsert) events 0
    { staged := [], done := false } [] (by intro j hj; simpa using hx j hj)
  simp only [insertBatch, beginTx, hb, hp, hloop, Tx.commit, hc, Tx.rollback]
  simp [expectedRows_ids]

theorem decodeBatch_ok (events : List EventIn) (h1 : 1 ≤ events.length)
    (h2 : events.length ≤ 1000) : decodeBatch (.ok events) = .ok events := by
  have a : ¬ events.length = 0 := by omega
  have b : ¬ events.length > 1000 := by omega
  simp [decodeBatch, a, b]

theorem postEventsBatch_valid (L : Lib) (E : Env) (db : DB) (events : List EventIn)
    (h1 : 1 ≤ events.length) (h2 : events.length ≤ 1000)
    (hv : ∀ i e, events[i]? = some e → validateEvent L (E.nowValidate i) e = none) :
    postEventsBatch L E (.ok events) db =
      match (insertBatch L E db events).result with
      | .error err =>
        { response := writeErr 500 "insert_failed" err, db := (insertBatch L E db events).db,
          calls := (List.range' 0 events.length).map Call.validateEvent ++ [.insertBatch] }
      | .ok ids =>
        { response := writeJSON 201 (.batch ids.length ids),
          db := (insertBatch L E db events).db,
          calls := (List.range' 0 events.length).map Call.validateEvent ++ [.insertBatch] } := by
  have hl := validateLoop_ok L E events 0 [] (by intro j e hj; simpa using hv j e hj)
  simp only [postEventsBatch, decodeBatch_ok events h1 h2, hl, List.nil_append]

theorem postEvents_valid (L : Lib) (E : Env) (db : DB) (e : EventIn)
    (hv : validateEvent L (E.nowValidate 0) e = none) :
    postEvents L E (.ok e) db =
      match E.faults.exec 0 with
      | some err =>
        { response := writeErr 500 "insert_failed" err, db := db,
          calls := [.validateEvent 0, .insertEvent] }
      | none =>
        { response := writeJSON 201
            (.event { id := E.newId 0, receivedAt := L.formatRFC3339 E.nowInsert }),
          db := db ++ [
            { id := E.newId 0, source := e.source, ts := e.ts, level := e.level,
              message := e.message, meta_json := if e.meta = [] then none else some e.meta,
              received_at := L.formatRFC3339 E.nowInsert }],
          calls := [.validateEvent 0, .insertEvent] } := by
  simp only [postEvents, decodeEvent, hv, insertEvent, execAuto, metaStr_eq]
  cases h : E.faults.exec 0 <;> simp

/-- The reference library follows `time.Parse` where it is laxer than RFC 3339: a `ts`
with a one-digit hour parses, and the candidate is accepted. -/
theorem validateEvent_one_digit_hour :
    refLib.parseRFC3339 shortHourEvent.ts = some (now0 + 3723 * second) ∧
    validateEvent refLib (now0 + 3723 * second) shortHourEvent = none := by
  decide

/-- The reference library follows `json.Unmarshal` where it is stricter than RFC 8259: a
meta that is a number beyond the `float64` range is rejected. -/
theorem validateEvent_number_out_of_range :
    validateEvent refLib now0 hugeNumberEvent = some "meta must be valid JSON" := by
  decide

/-! ## The validator (C4, C6, C7) -/

/-- C4: `validateEvent` returns the reason of the first violated rule in the fixed order
(source empty, source longer than 64, message empty, message longer than 2000, level not
one of the four names, ts unparseable, ts later than now + 5 minutes, meta present and not
valid JSON), lengths being Go's `len`; it returns no error exactly when no rule is violated;
and an empty trimmed source is rejected with "source is required" whatever the rest is. -/
theorem validateEvent_first_violated_rule (L : Lib) (now : Instant) (e : EventIn) :
    validateEvent L now e = firstViolation L now e ∧
    (validateEvent L now e = none ↔ ∀ r ∈ rules L now, r.1 e = false) ∧
    (trimSpace e.source = "" → validateEvent L now e = some "source is required") := by
  refine ⟨validateEvent_eq_firstViolation L now e, ?_, ?_⟩
  · rw [validateEvent_eq_firstViolation, firstViolation, Option.map_eq_none',
      List.find?_eq_none]
    simp
  · intro h
    unfold validateEvent
    simp [h]

/-- The scenario of C4: the candidate with the empty source is rejected for its source, and
the accepted scenario violates no rule. -/
theorem validateEvent_first_violated_rule_witness :
    validateEvent refLib now0 noSourceEvent = some "source is required" ∧
    firstViolation refLib now0 exampleEvent = none :=
  ⟨(validateEvent_first_violated_rule refLib now0 noSourceEvent).2.2 (by decide),
   (validateEvent_first_violated_rule refLib now0 exampleEvent).1.symm.trans (by decide)⟩

/-- C6, the claim as stated fails: a source of exactly 64 characters, with every other field
valid, is rejected as too long, because its 64 characters take 128 bytes. -/
theorem validateEvent_counts_bytes_counterexample :
    (trimSpace wideSourceEvent.source).length = 64 ∧
    len (trimSpace wideSourceEvent.source) = 128 ∧
    len (trimSpace wideSourceEvent.message) = 5 ∧
    trimSpace (refLib.toUpper wideSourceEvent.level) ∈ levels ∧
    refLib.parseRFC3339 wideSourceEvent.ts = some now0 ∧
    wideSourceEvent.meta = [] ∧
    validateEvent refLib now0 wideSourceEvent = some "source too long (max 64)" := by
  decide

/-- C6 (amended): with level, ts and meta valid, `validateEvent` accepts exactly when the
trimmed source has between 1 and 64 bytes of UTF-8 and the trimmed message between 1 and
2000.  A text has at least as many bytes as characters and exactly as many when it is
ASCII, so 64 (2000) ASCII characters pass the limit.  A trimmed source of more than 64
characters, or of exactly 64 characters that are not all ASCII, is rejected with "source
too long (max 64)"; with the source within its limit, a trimmed message of more than 2000
characters, or of exactly 2000 that are not all ASCII, is rejected with "message too long
(max 2000)". -/
theorem validateEvent_length_bounds (L : Lib) (now : Instant) (e : EventIn)
    (h : restValid L now e) :
    (validateEvent L now e = none ↔
      (1 ≤ len (trimSpace e.source) ∧ len (trimSpace e.source) ≤ 64) ∧
      (1 ≤ len (trimSpace e.message) ∧ len (trimSpace e.message) ≤ 2000)) ∧
    (trimSpace e.source).length ≤ len (trimSpace e.source) ∧
    (trimSpace e.message).length ≤ len (trimSpace e.message) ∧
    ((∀ c ∈ (trimSpace e.source).data, c.toNat < 128) →
      len (trimSpace e.source) = (trimSpace e.source).length) ∧
    ((∀ c ∈ (trimSpace e.message).data, c.toNat < 128) →
      len (trimSpace e.message) = (trimSpace e.message).length) ∧
    (64 < (trimSpace e.source).length →
      validateEvent L now e = some "source too long (max 64)") ∧
    ((trimSpace e.source).length = 64 →
      (∃ c ∈ (trimSpace e.source).data, 128 ≤ c.toNat) →
      validateEvent L now e = some "source too long (max 64)") ∧
    (1 ≤ len (trimSpace e.source) ∧ len (trimSpace e.source) ≤ 64 →
      2000 < (trimSpace e.message).length →
      validateEvent L now e = some "message too long (max 2000)") ∧
    (1 ≤ len (trimSpace e.source) ∧ len (trimSpace e.source) ≤ 64 →
      (trimSpace e.message).length = 2000 →
      (∃ c ∈ (trimSpace e.message).data, 128 ≤ c.toNat) →
      validateEvent L now e = some "message too long (max 2000)") := by
  refine ⟨?_, length_le_len _, length_le_len _, len_eq_length_of_ascii _,
    len_eq_length_of_ascii _, ?_, ?_, ?_, ?_⟩
  · have hs : 1 ≤ len (trimSpace e.source) ↔ trimSpace e.source ≠ "" := by
      rw [Ne, ← len_eq_zero_iff]; omega
    have hm : 1 ≤ len (trimSpace e.message) ↔ trimSpace e.message ≠ "" := by
      rw [Ne, ← len_eq_zero_iff]; omega
    rw [validateEvent_none_iff, hs, hm]
    constructor
    · intro hv; exact ⟨hv.1, hv.2.1⟩
    · intro hv; exact ⟨hv.1, hv.2, h⟩
  · intro hlen
    have := length_le_len (trimSpace e.source)
    exact validateEvent_source_too_long L now e (by omega)
  · intro hlen hna
    have := length_lt_len_of_non_ascii (trimSpace e.source) hna
    exact validateEvent_source_too_long L now e (by omega)
  · intro hs hlen
    have := length_le_len (trimSpace e.message)
    exact validateEvent_message_too_long L now e hs (by omega)
  · intro hs hlen hna
    have := length_lt_len_of_non_ascii (trimSpace e.message) hna
    exact validateEvent_message_too_long L now e hs (by omega)

/-- The accepted scenario at `now0`, five ASCII bytes of source and five of message; and the
source of 64 characters of two bytes each, rejected as too long. -/
theorem validateEvent_length_bounds_witness :
    restValid refLib now0 exampleEvent ∧ validateEvent refLib now0 exampleEvent = none ∧
    restValid refLib now0 wideSourceEvent ∧
    (trimSpace wideSourceEvent.source).length = 64 ∧
    validateEvent refLib now0 wideSourceEvent = some "source too long (max 64)" :=
  have h : restValid refLib now0 exampleEvent :=
    ⟨by decide, ⟨now0, by decide, by decide⟩, Or.inl rfl⟩
  have hw : restValid refLib now0 wideSourceEvent :=
    ⟨by decide, ⟨now0, by decide, by decide⟩, Or.inl rfl⟩
  ⟨h, (validateEvent_length_bounds refLib now0 exampleEvent h).1.2 (by decide),
   hw, by decide,
   (validateEvent_length_bounds refLib now0 wideSourceEvent hw).2.2.2.2.2.2.1 (by decide)
     ⟨Char.ofNat 0xE9, by decide, by decide⟩⟩

/-- C7: with source, message, level and meta valid and `ts` parsed to the instant `t`,
`validateEvent` rejects with "ts is too far in the future" exactly when `t` is strictly later
than now + 5 minutes, and accepts otherwise: now + 5 min + 1 s is rejected, now + 4 min 59 s
and now + 5 min exactly are accepted. -/
theorem validateEvent_future_boundary (L : Lib) (now : Int) (e : EventIn) (t : Int)
    (hsrc : trimSpace e.source ≠ "" ∧ len (trimSpace e.source) ≤ 64)
    (hmsg : trimSpace e.message ≠ "" ∧ len (trimSpace e.message) ≤ 2000)
    (hlvl : trimSpace (L.toUpper e.level) ∈ levels)
    (hmeta : e.meta = [] ∨ L.jsonValid e.meta = true)
    (hts : L.parseRFC3339 e.ts = some t) :
    (validateEvent L now e = some "ts is too far in the future" ↔ now + 5 * minute < t) ∧
    (validateEvent L now e = none ↔ ¬ now + 5 * minute < t) ∧
    (t = now + 5 * minute + second → validateEvent L now e = some "ts is too far in the future") ∧
    (t = now + 4 * minute + 59 * second → validateEvent L now e = none) ∧
    (t = now + 5 * minute → validateEvent L now e = none) := by
  have key := validateEvent_of_fields_valid L now e t hsrc hmsg hlvl hmeta hts
  refine ⟨?_, ?_, ?_, ?_, ?_⟩
  · rw [key]; by_cases h : now + 5 * minute < t <;> simp [h]
  · rw [key]; by_cases h : now + 5 * minute < t <;> simp [h]
  · intro ht
    have h : now + 5 * minute < t := by rw [ht]; unfold minute second; omega
    rw [key]; simp [h]
  · intro ht
    have h : ¬ now + 5 * minute < t := by rw [ht]; unfold minute second; omega
    rw [key]; simp [h]
  · intro ht
    have h : ¬ now + 5 * minute < t := by rw [ht]; omega
    rw [key]; simp [h]

/-- A candidate stamped now + 5 min + 1 s is rejected as too far in the future. -/
theorem validateEvent_future_boundary_witness :
    refLib.parseRFC3339 futureEvent.ts = some (now0 + 5 * minute + second) ∧
    validateEvent refLib now0 futureEvent = some "ts is too far in the future" :=
  ⟨by decide,
   (validateEvent_future_boundary refLib now0 futureEvent (now0 + 5 * minute + second)
     (by decide) (by decide) (by decide) (Or.inl rfl) (by decide)).2.2.1 rfl⟩

/-! ## The handlers and the store (C1, C2, C3, C5, C8, C9, C10) -/

/-- C1: for a batch of 1 to 1000 candidates of which at least one fails `validateEvent`,
the batch handler answers `invalid_event` with the message "index k: reason", where `k` is the
smallest 0-based index whose candidate fails and `reason` is what `validateEvent` says of it;
the candidates 0 to `k` were validated and no other, `insertBatch` is not called, and the
store holds the rows it held before. -/
theorem batch_first_invalid (L : Lib) (E : Env) (db : DB) (events : List EventIn)
    (h1 : 1 ≤ events.length) (h2 : events.length ≤ 1000)
    (hbad : ∃ i e, events[i]? = some e ∧ validateEvent L (E.nowValidate i) e ≠ none) :
    ∃ k e reason, events[k]? = some e ∧
      validateEvent L (E.nowValidate k) e = some reason ∧
      (∀ j e1, j < k → events[j]? = some e1 →
        validateEvent L (E.nowValidate j) e1 = none) ∧
      postEventsBatch L E (.ok events) db =
        { response := writeErr 400 "invalid_event" ("index " ++ toString k ++ ": " ++ reason),
          db := db, calls := (List.range' 0 (k + 1)).map Call.validateEvent } ∧
      Call.insertBatch ∉ (postEventsBatch L E (.ok events) db).calls ∧
      (postEventsBatch L E (.ok events) db).db = db := by
  classical
  have hex : ∃ i, ∃ e, events[i]? = some e ∧ validateEvent L (E.nowValidate i) e ≠ none := hbad
  obtain ⟨e, hk, hne⟩ := Nat.find_spec hex
  have hmin : ∀ j e1, j < Nat.find hex → events[j]? = some e1 →
      validateEvent L (E.nowValidate j) e1 = none := by
    intro j e1 hj hj1
    by_contra hc
    exact Nat.find_min hex hj ⟨e1, hj1, hc⟩
  obtain ⟨reason, hreason⟩ := Option.ne_none_iff_exists'.mp hne
  have hl := validateLoop_first L E events 0 [] (Nat.find hex) e reason hk
    (by simpa using hreason) (by intro j e1 hj hj1; simpa using hmin j e1 hj hj1)
  have hout : postEventsBatch L E (.ok events) db =
      { response := writeErr 400 "invalid_event"
          ("index " ++ toString (Nat.find hex) ++ ": " ++ reason),
        db := db, calls := (List.range' 0 (Nat.find hex + 1)).map Call.validateEvent } := by
    simp only [postEventsBatch, decodeBatch_ok events h1 h2, hl, Nat.zero_add, List.nil_append]
  refine ⟨Nat.find hex, e, reason, hk, hreason, hmin, hout, ?_, ?_⟩
  · rw [hout]; simp
  · rw [hout]

/-- A batch whose second candidate has no source: the answer names index 1. -/
theorem batch_first_invalid_witness :
    (∃ k e reason, [exampleEvent, noSourceEvent, futureEvent][k]? = some e ∧
      validateEvent refLib (env0.nowValidate k) e = some reason ∧
      (∀ j e1, j < k → [exampleEvent, noSourceEvent, futureEvent][j]? = some e1 →
        validateEvent refLib (env0.nowValidate j) e1 = none) ∧
      postEventsBatch refLib env0 (.ok [exampleEvent, noSourceEvent, futureEvent]) db0 =
        { response := writeErr 400 "invalid_event" ("index " ++ toString k ++ ": " ++ reason),
          db := db0, calls := (List.range' 0 (k + 1)).map Call.validateEvent } ∧
      Call.insertBatch ∉
        (postEventsBatch refLib env0 (.ok [exampleEvent, noSourceEvent, futureEvent]) db0).calls ∧
      (postEventsBatch refLib env0 (.ok [exampleEvent, noSourceEvent, futureEvent]) db0).db =
        db0) ∧
    postEventsBatch refLib env0 (.ok [exampleEvent, noSourceEvent, futureEvent]) db0 =
      { response := writeErr 400 "invalid_event" "index 1: source is required", db := db0,
        calls := [.validateEvent 0, .validateEvent 1] } :=
  ⟨batch_first_invalid refLib env0 db0 [exampleEvent, noSourceEvent, futureEvent]
      (by decide) (by decide) ⟨1, noSourceEvent, rfl, by decide⟩,
   by decide⟩

/-- C2 fails when the commit fails.  The commit of a batch of two is refused by the store:
`insertBatch` returns the error and no id list and nothing is committed, but the deferred
`Rollback` finds the transaction already marked finished and does not reach the store, so
the two staged rows are still on the connection and a reader sees them after the row of
`db0`.  When the second insert fails instead, the same deferred `Rollback` discards the
staged row and a reader sees `db0` alone. -/
theorem insertBatch_commit_failure_keeps_staged :
    (insertBatch refLib envCommitFails db0 [exampleEvent, metaEvent]).result =
      .error "database is locked" ∧
    (insertBatch refLib envCommitFails db0 [exampleEvent, metaEvent]).db = db0 ∧
    (insertBatch refLib envCommitFails db0 [exampleEvent, metaEvent]).tx =
      some { staged := expectedRows envCommitFails "2025-01-01T00:00:00Z"
               [exampleEvent, metaEvent] 0,
             done := true } ∧
    (insertBatch refLib envCommitFails db0 [exampleEvent, metaEvent]).visible.map Row.id =
      ["ulid-old", "ulid-0", "ulid-1"] ∧
    (insertBatch refLib envCommitFails db0 [exampleEvent, metaEvent]).visible ≠ db0 ∧
    (insertBatch refLib envSecondExecFails db0 [exampleEvent, metaEvent]).result =
      .error "disk I/O error" ∧
    (insertBatch refLib envSecondExecFails db0 [exampleEvent, metaEvent]).tx =
      some { staged := [], done := true } ∧
    (insertBatch refLib envSecondExecFails db0 [exampleEvent, metaEvent]).visible = db0 :=
  ⟨rfl, by decide, by decide, by decide, by decide, rfl, by decide, by decide⟩

/-- C3: when every store operation succeeds, `insertBatch` on `N` events (any `N`, so
also 1 to 1000) returns exactly `N` ids, the `i`-th being the id of the row written for the
`i`-th event; the store gains exactly those `N` rows, in input order, every one with the same
`received_at`; and the ids are pairwise distinct when the identifier generator gives distinct
values on the `N` calls. -/
theorem insertBatch_success (L : Lib) (E : Env) (db : DB) (events : List EventIn)
    (hok : noFaults E.faults events.length) :
    ∃ ids rows, (insertBatch L E db events).result = .ok ids ∧
      (insertBatch L E db events).db = db ++ rows ∧
      ids.length = events.length ∧ rows.length = events.length ∧
      (∀ i e, events[i]? = some e →
        ids[i]? = some (E.newId i) ∧
        rows[i]? = some
          { id := E.newId i, source := e.source, ts := e.ts, level := e.level,
            message := e.message, meta_json := if e.meta = [] then none else some e.meta,
            received_at := L.formatRFC3339 E.nowInsert }) ∧
      (∀ r ∈ rows, r.received_at = L.formatRFC3339 E.nowInsert) ∧
      ((∀ i j, i < events.length → j < events.length → E.newId i = E.newId j → i = j) →
        ids.Nodup) := by
  obtain ⟨hres, hdb, _⟩ := insertBatch_ok L E db events hok
  refine ⟨_, _, hres, hdb, by simp, expectedRows_length _ _ _ _, ?_,
    expectedRows_received_at _ _ _ _, ?_⟩
  · intro i e hi
    have hlt : i < events.length := (List.getElem?_eq_some_iff.mp hi).1
    constructor
    · simp [List.getElem?_map, List.getElem?_range', hlt]
    · rw [expectedRows_getElem?, hi]; simp
  · intro hinj
    apply List.Nodup.map_on _ (List.nodup_range' 0 events.length)
    intro i hi j hj hij
    simp only [List.mem_range'_1] at hi hj
    exact hinj i j (by omega) (by omega) hij

/-- Two candidates written to `db0` by a healthy store: two new rows after the old one,
ids in input order, one receipt time. -/
theorem insertBatch_success_witness :
    (∃ ids rows, (insertBatch refLib env0 db0 [exampleEvent, metaEvent]).result = .ok ids ∧
      (insertBatch refLib env0 db0 [exampleEvent, metaEvent]).db = db0 ++ rows ∧
      ids.length = 2 ∧ rows.length = 2) ∧
    (insertBatch refLib env0 db0 [exampleEvent, metaEvent]).db.map Row.id =
      ["ulid-old", "ulid-0", "ulid-1"] ∧
    (insertBatch refLib env0 db0 [exampleEvent, metaEvent]).db.map Row.received_at =
      ["2024-12-31T23:59:59Z", "2025-01-01T00:00:00Z", "2025-01-01T00:00:00Z"] :=
  ⟨(insertBatch_success refLib env0 db0 [exampleEvent, metaEvent]
      ⟨rfl, rfl, fun _ _ => rfl, rfl⟩).imp
      (fun _ h => h.imp (fun _ h1 => ⟨h1.1, h1.2.1, h1.2.2.1, h1.2.2.2.1⟩)),
   by decide, by decide⟩

/-- C5 (amended): for a candidate that passes `validateEvent` and is then inserted, by
`insertEvent` behind the single handler or as a member of a batch, the stored row carries the
source, level and message exactly as they came in; the trimmed and upper-cased forms serve the
validation only. -/
theorem stored_fields_are_raw (L : Lib) (E : Env) (db : DB) :
    (∀ e, validateEvent L (E.nowValidate 0) e = none → E.faults.exec 0 = none →
      ∃ r : Row, (postEvents L E (.ok e) db).db = db ++ [r] ∧
        r.source = e.source ∧ r.level = e.level ∧ r.message = e.message) ∧
    (∀ events : List EventIn, 1 ≤ events.length → events.length ≤ 1000 →
      (∀ (i : Nat) (e : EventIn), events[i]? = some e → validateEvent L (E.nowValidate i) e = none) →
      noFaults E.faults events.length →
      ∃ rows : List Row, (postEventsBatch L E (.ok events) db).db = db ++ rows ∧
        rows.length = events.length ∧
        ∀ (i : Nat) (e : EventIn), events[i]? = some e →
          ∃ r : Row, rows[i]? = some r ∧
            r.source = e.source ∧ r.level = e.level ∧ r.message = e.message) := by
  constructor
  · intro e hv hx
    rw [postEvents_valid L E db e hv, hx]
    exact ⟨_, rfl, rfl, rfl, rfl⟩
  · intro events h1 h2 hv hok
    obtain ⟨hres, hdb, _⟩ := insertBatch_ok L E db events hok
    rw [postEventsBatch_valid L E db events h1 h2 hv, hres]
    refine ⟨_, hdb, expectedRows_length _ _ _ _, ?_⟩
    intro i e hi
    rw [expectedRows_getElem?, hi]
    exact ⟨_, rfl, rfl, rfl, rfl⟩

/-- A padded, mixed-case candidate is accepted and stored with its padding and case. -/
theorem stored_fields_are_raw_witness :
    (∃ r : Row, (postEvents refLib env0 (.ok metaEvent) db0).db = db0 ++ [r] ∧
      r.source = " svc-b " ∧ r.level = " Error " ∧ r.message = "boom") :=
  (stored_fields_are_raw refLib env0 db0).1 metaEvent (by decide) (by decide)

/-- C5, the claim as stated fails on its own scenario: the candidate with level "info" is
accepted, its normalised level is "INFO", and the level stored by either handler is "info". -/
theorem stored_fields_counterexample :
    validateEvent refLib now0 exampleEvent = none ∧
    trimSpace (refLib.toUpper exampleEvent.level) = "INFO" ∧
    (postEvents refLib env0 (.ok exampleEvent) []).response.status = 201 ∧
    (postEvents refLib env0 (.ok exampleEvent) []).db.map Row.level = ["info"] ∧
    (postEventsBatch refLib env0 (.ok [exampleEvent]) []).response.status = 201 ∧
    (postEventsBatch refLib env0 (.ok [exampleEvent]) []).db.map Row.level = ["info"] ∧
    "info" ≠ "INFO" := by
  decide

/-- C8: the size check of `decodeBatch` rejects an empty list with "batch must not be
empty" and a list of more than 1000 with "batch too large (max 1000)", and returns a list of
1 to 1000 unchanged; on either rejection the batch handler answers `invalid_request`, calls
neither `validateEvent` nor `insertBatch`, and leaves the store as it was. -/
theorem decodeBatch_size_check (L : Lib) (E : Env) (db : DB) (arr : List EventIn) :
    (arr.length = 0 →
      decodeBatch (.ok arr) = .error "batch must not be empty" ∧
      postEventsBatch L E (.ok arr) db =
        { response := writeErr 400 "invalid_request" "batch must not be empty", db := db,
          calls := [] }) ∧
    (arr.length > 1000 →
      decodeBatch (.ok arr) = .error "batch too large (max 1000)" ∧
      postEventsBatch L E (.ok arr) db =
        { response := writeErr 400 "invalid_request" "batch too large (max 1000)", db := db,
          calls := [] }) ∧
    (1 ≤ arr.length ∧ arr.length ≤ 1000 → decodeBatch (.ok arr) = .ok arr) := by
  refine ⟨?_, ?_, ?_⟩
  · intro h
    simp [postEventsBatch, decodeBatch, h]
  · intro h
    have h0 : ¬ arr.length = 0 := by omega
    simp [postEventsBatch, decodeBatch, h, h0]
  · intro h
    exact decodeBatch_ok arr h.1 h.2

/-- The empty batch, a batch of 1001 and a batch of two. -/
theorem decodeBatch_size_check_witness :
    (postEventsBatch refLib env0 (.ok []) db0 =
      { response := writeErr 400 "invalid_request" "batch must not be empty", db := db0,
        calls := [] }) ∧
    (postEventsBatch refLib env0 (.ok (List.replicate 1001 exampleEvent)) db0 =
      { response := writeErr 400 "invalid_request" "batch too large (max 1000)", db := db0,
        calls := [] }) ∧
    decodeBatch (.ok [exampleEvent, metaEvent]) = .ok [exampleEvent, metaEvent] :=
  ⟨((decodeBatch_size_check refLib env0 db0 []).1 rfl).2,
   ((decodeBatch_size_check refLib env0 db0 (List.replicate 1001 exampleEvent)).2.1
      (by rw [List.length_replicate]; omega)).2,
   (decodeBatch_size_check refLib env0 db0 [exampleEvent, metaEvent]).2.2 (by decide)⟩

/-- C9: the row written by `insertEvent`, and each row written by `insertBatch`, has
`NULL` in `meta_json` when the event's meta is zero bytes long and the raw meta bytes
otherwise; it never has the empty text. -/
theorem meta_json_written (L : Lib) (E : Env) (db : DB) :
    (∀ e, E.faults.exec 0 = none →
      ∃ r : Row, (insertEvent L E db e).2 = db ++ [r] ∧
        (e.meta.length = 0 → r.meta_json = none) ∧
        (e.meta.length ≠ 0 → r.meta_json = some e.meta) ∧
        r.meta_json ≠ some []) ∧
    (∀ events : List EventIn, noFaults E.faults events.length →
      ∃ rows : List Row, (insertBatch L E db events).db = db ++ rows ∧
        rows.length = events.length ∧
        ∀ (i : Nat) (e : EventIn), events[i]? = some e →
          ∃ r : Row, rows[i]? = some r ∧
            (e.meta.length = 0 → r.meta_json = none) ∧
            (e.meta.length ≠ 0 → r.meta_json = some e.meta) ∧
            r.meta_json ≠ some []) := by
  have key : ∀ e : EventIn,
      (e.meta.length = 0 → (if e.meta = [] then none else some e.meta) = none) ∧
      (e.meta.length ≠ 0 → (if e.meta = [] then none else some e.meta) = some e.meta) ∧
      (if e.meta = [] then none else some e.meta) ≠ some [] := by
    intro e
    cases h : e.meta <;> simp
  constructor
  · intro e hx
    simp only [insertEvent, execAuto, hx, metaStr_eq]
    exact ⟨_, rfl, key e⟩
  · intro events hok
    obtain ⟨_, hdb, _⟩ := insertBatch_ok L E db events hok
    refine ⟨_, hdb, expectedRows_length _ _ _ _, ?_⟩
    intro i e hi
    rw [expectedRows_getElem?, hi]
    exact ⟨_, rfl, key e⟩

/-- A candidate without meta and one with a meta object, written after the row of `db0`. -/
theorem meta_json_written_witness :
    (insertBatch refLib env0 db0 [exampleEvent, metaEvent]).db.map Row.meta_json =
      [none, none, some [0x7B, 0x22, 0x6B, 0x22, 0x3A, 0x31, 0x7D]] ∧
    (∃ r : Row, (insertEvent refLib env0 db0 metaEvent).2 = db0 ++ [r] ∧
      (metaEvent.meta.length = 0 → r.meta_json = none) ∧
      (metaEvent.meta.length ≠ 0 → r.meta_json = some metaEvent.meta) ∧
      r.meta_json ≠ some []) :=
  ⟨by decide, (meta_json_written refLib env0 db0).1 metaEvent (by decide)⟩

/-- C10 (amended): when the store fails in `insertEvent` or `insertBatch`, the handler
answers status 500 with code `insert_failed` and, as message, the text of the store error
itself: for `insertBatch`, of the first store operation that fails.  So two store errors on
the same request give the same response body exactly when their texts are the same. -/
theorem insert_failed_response (L : Lib) (db : DB) :
    (∀ (E : Env) (e : EventIn) (err : String),
      validateEvent L (E.nowValidate 0) e = none → E.faults.exec 0 = some err →
      (postEvents L E (.ok e) db).response =
        { status := 500, body := .error "insert_failed" err }) ∧
    (∀ (E : Env) (events : List EventIn) (err : String),
      1 ≤ events.length → events.length ≤ 1000 →
      (∀ (i : Nat) (e : EventIn), events[i]? = some e →
        validateEvent L (E.nowValidate i) e = none) →
      firstFault E.faults events.length = some err →
      (postEventsBatch L E (.ok events) db).response =
        { status := 500, body := .error "insert_failed" err }) ∧
    (∀ (E1 E2 : Env) (e : EventIn) (err1 err2 : String),
      validateEvent L (E1.nowValidate 0) e = none →
      validateEvent L (E2.nowValidate 0) e = none →
      E1.faults.exec 0 = some err1 → E2.faults.exec 0 = some err2 →
      ((postEvents L E1 (.ok e) db).response.body =
        (postEvents L E2 (.ok e) db).response.body ↔ err1 = err2)) ∧
    (∀ (E1 E2 : Env) (events : List EventIn) (err1 err2 : String),
      1 ≤ events.length → events.length ≤ 1000 →
      (∀ (i : Nat) (e : EventIn), events[i]? = some e →
        validateEvent L (E1.nowValidate i) e = none) →
      (∀ (i : Nat) (e : EventIn), events[i]? = some e →
        validateEvent L (E2.nowValidate i) e = none) →
      firstFault E1.faults events.length = some err1 →
      firstFault E2.faults events.length = some err2 →
      ((postEventsBatch L E1 (.ok events) db).response.body =
        (postEventsBatch L E2 (.ok events) db).response.body ↔ err1 = err2)) := by
  have single : ∀ (E : Env) (e : EventIn) (err : String),
      validateEvent L (E.nowValidate 0) e = none → E.faults.exec 0 = some err →
      (postEvents L E (.ok e) db).response =
        { status := 500, body := .error "insert_failed" err } := by
    intro E e err hv hx
    rw [postEvents_valid L E db e hv, hx]
    rfl
  have batch : ∀ (E : Env) (events : List EventIn) (err : String),
      1 ≤ events.length → events.length ≤ 1000 →
      (∀ (i : Nat) (e : EventIn), events[i]? = some e →
        validateEvent L (E.nowValidate i) e = none) →
      firstFault E.faults events.length = some err →
      (postEventsBatch L E (.ok events) db).response =
        { status := 500, body := .error "insert_failed" err } := by
    intro E events err h1 h2 hv hf
    rw [postEventsBatch_valid L E db events h1 h2 hv, insertBatch_result, hf]
    rfl
  refine ⟨single, batch, ?_, ?_⟩
  · intro E1 E2 e err1 err2 hv1 hv2 hx1 hx2
    rw [single E1 e err1 hv1 hx1, single E2 e err2 hv2 hx2]
    simp
  · intro E1 E2 events err1 err2 h1 h2 hv1 hv2 hf1 hf2
    rw [batch E1 events err1 h1 h2 hv1 hf1, batch E2 events err2 h1 h2 hv2 hf2]
    simp

/-- A failed insert behind the single handler and a failed commit behind the batch handler:
each answer carries the text of its store error. -/
theorem insert_failed_response_witness :
    (postEvents refLib (envExecFails "database is locked") (.ok exampleEvent) db0).response =
      { status := 500, body := .error "insert_failed" "database is locked" } ∧
    (postEventsBatch refLib envCommitFails (.ok [exampleEvent, metaEvent]) db0).response =
      { status := 500, body := .error "insert_failed" "database is locked" } ∧
    ((postEvents refLib (envExecFails "database is locked") (.ok exampleEvent) db0).response.body =
      (postEvents refLib (envExecFails "disk I/O error") (.ok exampleEvent) db0).response.body ↔
      "database is locked" = "disk I/O error") :=
  ⟨(insert_failed_response refLib db0).1 (envExecFails "database is locked") exampleEvent
      "database is locked" (by decide) (by decide),
   (insert_failed_response refLib db0).2.1 envCommitFails [exampleEvent, metaEvent]
      "database is locked" (by decide) (by decide)
      (by
        intro i e hi
        match i, hi with
        | 0, hi => cases hi; decide
        | 1, hi => cases hi; decide)
      (by decide),
   (insert_failed_response refLib db0).2.2.1 (envExecFails "database is locked")
      (envExecFails "disk I/O error") exampleEvent "database is locked" "disk I/O error"
      (by decide) (by decide) (by decide) (by decide)⟩

/-- C10, the claim as stated fails: the same request meets two different store errors and
the two response bodies differ, each carrying the text of its store error. -/
theorem insert_failed_counterexample :
    (postEvents refLib (envExecFails "database is locked") (.ok exampleEvent) db0).response.body =
      .error "insert_failed" "database is locked" ∧
    (postEvents refLib (envExecFails "disk I/O error") (.ok exampleEvent) db0).response.body =
      .error "insert_failed" "disk I/O error" ∧
    (postEvents refLib (envExecFails "database is locked") (.ok exampleEvent) db0).response.body ≠
      (postEvents refLib (envExecFails "disk I/O error") (.ok exampleEvent) db0).response.body := by
  decide

end Ingest
